import Mathlib

/-!
Verification development for the cdi (contexts-and-dependency-injection)
container library.  The definitions below are a shallow embedding of the
C++ sources: `contextual.hh` (phases, assets, resource managers and their
registration calls), `container.hh` (the instantiation engine `container::get`,
the deferred-work queues `do_deferred` / `defer_creation`, and the
consistency checker `check_consistency`), `scope.hh` (the `context` store,
`GlobalScope`, `NewScope`, `GuardedScope`), and `qualifiers.hh`
(qualifier matching and qualifier sets).

Resource identities (`resourceid`) are modelled as natural numbers: the
engine only ever compares them for equality.  Type-erased instance values
(`std::any` contents) are a type parameter `V`; user-visible side effects of
the registered callbacks (heap writes, logs) are a state parameter `S`
threaded through every callback, and a callback that throws is modelled by
an `Except` error carrying a numeric code.
-/

namespace CDI

/-- Resource identity: `cdi::resourceid`, used by the engine only through
equality, rendered into messages via `toString`. -/
abbrev Rid := Nat

/-- Lifecycle phases, `enum class Phase` of `contextual.hh`. -/
inductive Phase : Type where
  | allocated
  | provided
  | injected
  | created
  | disposed
deriving DecidableEq, Repr

/-- Numeric value of the `Phase` enum, used for the `<` comparison. -/
def Phase.idx : Phase → Nat
  | .allocated => 0
  | .provided => 1
  | .injected => 2
  | .created => 3
  | .disposed => 4

/-- The phase comparison `ass->phase() < p` on the underlying enum values. -/
def Phase.lt (a b : Phase) : Bool := a.idx < b.idx

/-- `container::text_phase` (the `Phase::allocated` version). -/
def textPhase : Phase → String
  | .allocated => "allocation"
  | .provided => "construction"
  | .injected => "injection"
  | .created => "creation"
  | .disposed => "disposal"

/-- Exceptions of the library (`exceptions.hh`): `instantiation_error` keeps
an optional nested cause (`std::throw_with_nested`); a user callback that
throws is `userError` with a numeric code; `typeMismatch` is
`std::bad_any_cast`; `outOfFuel` marks exhaustion of the recursion fuel of
the embedding (never reached on the concrete runs below). -/
inductive Err : Type where
  | outOfFuel : Err
  | instantiation : String → Option Err → Err
  | userError : Nat → Err
  | typeMismatch : Rid → Err
  | disposal : String → Err
  | inactiveScope : String → Err
deriving Repr

/-- The messages of an error chain, outermost first (what
`output_exception` prints line by line). -/
def Err.msgs : Err → List String
  | .instantiation m (some e) => m :: e.msgs
  | .instantiation m none => [m]
  | .outOfFuel => []
  | .userError _ => []
  | .typeMismatch _ => []
  | .disposal m => [m]
  | .inactiveScope m => [m]

/-- Whether the outermost error is an `instantiation_error`. -/
def Err.isInstantiation : Err → Bool
  | .instantiation _ _ => true
  | _ => false

/-- Character-list prefix test on strings (the report and error messages of
the source put the quoted phrases at the start of a line). -/
def strPrefix (p s : String) : Bool := p.toList.isPrefixOf s.toList

/-- Whether some message in the chain starts with the given phrase. -/
def chainHas (phrase : String) (e : Err) : Bool :=
  e.msgs.any fun m => strPrefix phrase m

/-- `cdi::asset`: a type-erased value holder (`std::any`, empty = `none`)
together with its current phase. -/
structure Asset (V : Type) : Type where
  obj : Option V
  ph : Phase
deriving DecidableEq, Repr

/-- A freshly emplaced asset: empty `std::any`, phase `allocated`. -/
def Asset.fresh {V : Type} : Asset V := { obj := none, ph := .allocated }

section Engine

variable {S V : Type}

/-- Association-list lookup, the model of `unordered_map::find`. -/
def alookup (r : Rid) : List (Rid × Asset V) → Option (Asset V)
  | [] => none
  | (k, a) :: rest => if k = r then some a else alookup r rest

/-- Replace the asset stored under a key (write through the `asset*`). -/
def aupdate (r : Rid) (a : Asset V) : List (Rid × Asset V) → List (Rid × Asset V)
  | [] => []
  | (k, b) :: rest => if k = r then (k, a) :: rest else (k, b) :: aupdate r a rest

/-- `unordered_map::erase(key)`, the model of `context::drop`. -/
def aerase (r : Rid) (l : List (Rid × Asset V)) : List (Rid × Asset V) :=
  l.filter fun p => p.1 ≠ r

/-- A resource manager, `cdi::contextual<Instance>`.  Each lifecycle call of
the C++ class is a `typed_call` holding a recorded injection list
(`call.injected`, what the introspection queries return) and a bound
function.  The bound function resolves its dependency arguments through the
container at invocation time, so the model keeps the resolution list next to
the function.  A callback returns the (possibly mutated) instance value and
the new user state, or throws a numeric user error. -/
structure RM (S V : Type) : Type where
  provInjected : List Rid := []
  provFn : Option (List Rid × (List V → S → Except Nat (V × S))) := none
  injs : List (List Rid × (V → List V → S → Except Nat (V × S))) := []
  injsInjected : List (List Rid) := []
  initInjected : List Rid := []
  initFn : Option (List Rid × (V → List V → S → Except Nat (V × S))) := none
  dispInjected : List Rid := []
  dispFn : Option (List Rid × (V → List V → S → Except Nat (V × S))) := none

/-- `contextual::provider`: clears the recorded list, then `unwrap_inject`
pushes each dependency of the new provider onto `prov.injected`. -/
def RM.setProvider (rm : RM S V) (fn : List V → S → Except Nat (V × S))
    (deps : List Rid) : RM S V :=
  { rm with provInjected := deps, provFn := some (deps, fn) }

/-- `contextual::injector`: appends a `typed_call` whose `injected` list
holds the dependencies in registration order. -/
def RM.addInjector (rm : RM S V) (fn : V → List V → S → Except Nat (V × S))
    (deps : List Rid) : RM S V :=
  { rm with injs := rm.injs ++ [(deps, fn)],
            injsInjected := rm.injsInjected ++ [deps] }

/-- `contextual::initializer`.  The source clears `init.injected` and binds
the callback (with its dependencies resolved at phase `injected`), but it
calls `disp.unwrap_inject` instead of `init.unwrap_inject`, so the
dependency handles are recorded on the disposer's injection list while the
initializer's recorded list stays empty. -/
def RM.setInitCall (rm : RM S V) (fn : V → List V → S → Except Nat (V × S))
    (deps : List Rid) : RM S V :=
  { rm with initInjected := [],
            initFn := some (deps, fn),
            dispInjected := rm.dispInjected ++ deps }

/-- `contextual::disposer`: clears `disp.injected` then records the new
dependency list (resolved at phase `created`). -/
def RM.setDisposer (rm : RM S V) (fn : V → List V → S → Except Nat (V × S))
    (deps : List Rid) : RM S V :=
  { rm with dispInjected := deps, dispFn := some (deps, fn) }

/-- `contextual_base::number_of_injectors`. -/
def RM.numInjectors (rm : RM S V) : Nat := rm.injs.length

/-- The scope a resource is bound to (the `Scope` template argument of
`resource<Instance, Scope, ...>`); the engine claims exercise the global
scope and `NewScope`. -/
inductive ScopeKind : Type where
  | global
  | newScope
deriving DecidableEq, Repr

/-- The container's registry (`resource_map<contextual_base*> rms`, as an
association list fixing an iteration order) together with the compile-time
scope binding of each resource. -/
structure Config (S V : Type) : Type where
  rms : List (Rid × RM S V)
  scopeOf : Rid → ScopeKind

/-- `container::get_declared` (returns `nullptr` when undeclared). -/
def lookupRM (cfg : Config S V) (r : Rid) : Option (RM S V) :=
  (cfg.rms.find? fun p => p.1 = r).map Prod.snd

/-- Where an asset lives: an entry of the global context, or the single
static asset of `NewScope::get_asset`.  This is the model of the `asset*`
pointer carried by the deferred-work records. -/
inductive AssetLoc : Type where
  | inCtx : Rid → AssetLoc
  | cell : AssetLoc
deriving DecidableEq, Repr

/-- A `deferred_work` record: the asset pointer plus the resource manager
(identified by its rid). -/
structure DW : Type where
  loc : AssetLoc
  rid : Rid
deriving DecidableEq, Repr

/-- The mutable state of the container: the global context's asset map, the
static asset of `NewScope`, the two deferred-work stacks (`top` = head), and
the user-visible state mutated by callbacks. -/
structure EngState (S V : Type) : Type where
  ctx : List (Rid × Asset V)
  nsCell : Asset V
  dinj : List DW
  dcre : List DW
  user : S
deriving Repr

/-- Read the asset behind an asset pointer. -/
def readAsset (s : EngState S V) : AssetLoc → Option (Asset V)
  | .inCtx r => alookup r s.ctx
  | .cell => some s.nsCell

/-- Write the asset behind an asset pointer. -/
def writeAsset (s : EngState S V) (loc : AssetLoc) (a : Asset V) : EngState S V :=
  match loc with
  | .inCtx r => { s with ctx := aupdate r a s.ctx }
  | .cell => { s with nsCell := a }

/-- `scope::get_asset`.  For the global scope this is `context::get`: emplace
an empty asset if the rid is absent and report whether it was new.  For
`NewScope` the single static asset is reset to a fresh empty asset and
always reported new. -/
def scopeGetAsset (cfg : Config S V) (r : Rid) (s : EngState S V) :
    (AssetLoc × Bool) × EngState S V :=
  match cfg.scopeOf r with
  | .global =>
    match alookup r s.ctx with
    | some _ => ((.inCtx r, false), s)
    | none => ((.inCtx r, true), { s with ctx := s.ctx ++ [(r, Asset.fresh)] })
  | .newScope => ((.cell, true), { s with nsCell := Asset.fresh })

/-- `scope::drop_asset`: `context::drop` for the global scope, a no-op for
`NewScope`. -/
def scopeDropAsset (cfg : Config S V) (r : Rid) (s : EngState S V) : EngState S V :=
  match cfg.scopeOf r with
  | .global => { s with ctx := aerase r s.ctx }
  | .newScope => s

/-- `container::defer_creation`: push the work on the injection stack when
the freshly provided asset has injectors, else advance to `injected`; then
push on the creation stack when it has an initializer, else advance to
`created`. -/
def deferCreation (cfg : Config S V) (w : DW) (s : EngState S V) : EngState S V :=
  match readAsset s w.loc, lookupRM cfg w.rid with
  | some a, some rm =>
    if a.ph = .provided then
      if rm.numInjectors > 0 then { s with dinj := w :: s.dinj }
      else
        let s1 := writeAsset s w.loc { a with ph := .injected }
        if rm.initFn.isSome then { s1 with dcre := w :: s1.dcre }
        else writeAsset s1 w.loc { a with ph := .created }
    else if a.ph = .injected then
      if rm.initFn.isSome then { s with dcre := w :: s.dcre }
      else writeAsset s w.loc { a with ph := .created }
    else s
  | _, _ => s

/-- Which deferred-work stack served a drained item. -/
inductive DrainSrc : Type where
  | fromInjection
  | fromCreation
deriving DecidableEq, Repr

/-- The selection made by the loop body of `container::do_deferred`: pop
from the injection stack if it is non-empty, otherwise from the creation
stack, otherwise stop. -/
def nextDeferred (s : EngState S V) : Option (DrainSrc × DW × EngState S V) :=
  match s.dinj with
  | w :: rest => some (.fromInjection, w, { s with dinj := rest })
  | [] =>
    match s.dcre with
    | w :: rest => some (.fromCreation, w, { s with dcre := rest })
    | [] => none

mutual

/-- `container::get(r, p)`, the instantiation entry point, with explicit
recursion fuel.  Follows the source line by line: phase-request check,
`scope::get_asset`, provisioning of a new asset (dropping it and nesting the
cause on failure), the allocated-phase cycle check for re-entered assets,
then the drain loop. -/
def getF (cfg : Config S V) (fuel : Nat) (r : Rid) (p : Phase)
    (s : EngState S V) : Except Err V × EngState S V :=
  match fuel with
  | 0 => (.error .outOfFuel, s)
  | fuel' + 1 =>
    if p = Phase.allocated ∨ p = Phase.disposed then
      (.error (.instantiation
        ("Cannot return an object in " ++ textPhase p ++ " phase, for " ++ toString r)
        none), s)
    else
      match scopeGetAsset cfg r s with
      | ((loc, isnew), s1) =>
        if isnew then
          match lookupRM cfg r with
          | none =>
            (.error (.instantiation
              ("Undeclared resource in instantiating " ++ toString r) none),
             scopeDropAsset cfg r s1)
          | some rm =>
            match provideCall cfg fuel' r rm s1 with
            | (.error e, s2) =>
              (.error (.instantiation
                ("Error while instantiating " ++ toString r) (some e)),
               scopeDropAsset cfg r s2)
            | (.ok v, s2) =>
              let s3 := writeAsset s2 loc { obj := some v, ph := .provided }
              let s4 := deferCreation cfg ⟨loc, r⟩ s3
              drainTo cfg fuel' r p loc s4
        else
          match readAsset s1 loc with
          | none => (.error (.typeMismatch r), s1)
          | some a =>
            if a.ph = Phase.allocated then
              (.error (.instantiation
                ("Cyclical dependency in instantiating " ++ toString r) none), s1)
            else
              drainTo cfg fuel' r p loc s1
termination_by structural fuel

/-- The loop `while (ass->phase() < p) { if (do_deferred() == 0) throw ...; }`
followed by the final `ass->get<return_type>()` read (an empty holder
throws `std::bad_any_cast`). -/
def drainTo (cfg : Config S V) (fuel : Nat) (r : Rid) (p : Phase)
    (loc : AssetLoc) (s : EngState S V) : Except Err V × EngState S V :=
  match fuel with
  | 0 => (.error .outOfFuel, s)
  | fuel' + 1 =>
    match readAsset s loc with
    | none => (.error (.typeMismatch r), s)
    | some a =>
      if a.ph.lt p then
        match doDeferredAux cfg fuel' 0 s with
        | (.error e, s1) => (.error e, s1)
        | (.ok count, s1) =>
          if count = 0 then
            (.error (.instantiation
              ("Cyclical dependency in instantiating " ++ toString r) none), s1)
          else drainTo cfg fuel' r p loc s1
      else
        match a.obj with
        | some v => (.ok v, s)
        | none => (.error (.typeMismatch r), s)
termination_by structural fuel

/-- The loop of `container::do_deferred`, accumulating the count of drained
items; selection of the next item is `nextDeferred`. -/
def doDeferredAux (cfg : Config S V) (fuel : Nat) (count : Nat)
    (s : EngState S V) : Except Err Nat × EngState S V :=
  match fuel with
  | 0 => (.error .outOfFuel, s)
  | fuel' + 1 =>
    match nextDeferred s with
    | none => (.ok count, s)
    | some (.fromInjection, w, s1) =>
      match workInject cfg fuel' w s1 with
      | (.error e, s2) => (.error e, s2)
      | (.ok _, s2) => doDeferredAux cfg fuel' (count + 1) (deferCreation cfg w s2)
    | some (.fromCreation, w, s1) =>
      match workCreate cfg fuel' w s1 with
      | (.error e, s2) => (.error e, s2)
      | (.ok _, s2) => doDeferredAux cfg fuel' (count + 1) s2
termination_by structural fuel

/-- `deferred_work::inject`: when the asset is still `provided`, run the
manager's injectors (`contextual::inject_instance`), then advance the phase
to `injected`. -/
def workInject (cfg : Config S V) (fuel : Nat) (w : DW) (s : EngState S V) :
    Except Err Unit × EngState S V :=
  match fuel with
  | 0 => (.error .outOfFuel, s)
  | fuel' + 1 =>
    match readAsset s w.loc, lookupRM cfg w.rid with
    | some a, some rm =>
      if a.ph = Phase.provided then
        match runInjectors cfg fuel' w.loc rm.injs s with
        | (.error e, s1) => (.error e, s1)
        | (.ok _, s1) =>
          match readAsset s1 w.loc with
          | some a1 => (.ok (), writeAsset s1 w.loc { a1 with ph := .injected })
          | none => (.error (.typeMismatch w.rid), s1)
      else (.ok (), s)
    | _, _ => (.error (.typeMismatch w.rid), s)
termination_by structural fuel

/-- Run the injector list in registration order.  Each injector resolves its
dependencies through `get(dep, Phase::provided)` and then mutates the
instance in place (the mutation is written back to the asset, so partial
updates survive a later failure, as with the C++ reference argument). -/
def runInjectors (cfg : Config S V) (fuel : Nat) (loc : AssetLoc)
    (injs : List (List Rid × (V → List V → S → Except Nat (V × S))))
    (s : EngState S V) : Except Err Unit × EngState S V :=
  match fuel with
  | 0 => (.error .outOfFuel, s)
  | fuel' + 1 =>
    match injs with
    | [] => (.ok (), s)
    | (deps, fn) :: rest =>
      match resolveDeps cfg fuel' deps .provided s with
      | (.error e, s1) => (.error e, s1)
      | (.ok vals, s1) =>
        match readAsset s1 loc with
        | none => (.error (.typeMismatch 0), s1)
        | some a =>
          match a.obj with
          | none => (.error (.typeMismatch 0), s1)
          | some v =>
            match fn v vals s1.user with
            | .error c => (.error (.userError c), s1)
            | .ok (v', u') =>
              let s2 := writeAsset { s1 with user := u' } loc { a with obj := some v' }
              runInjectors cfg fuel' loc rest s2
termination_by structural fuel

/-- `deferred_work::create`: when the asset is `injected`, run the
initializer (`contextual::initialize_instance`, a no-op when unset, with its
dependencies resolved at `Phase::injected`), then advance to `created`. -/
def workCreate (cfg : Config S V) (fuel : Nat) (w : DW) (s : EngState S V) :
    Except Err Unit × EngState S V :=
  match fuel with
  | 0 => (.error .outOfFuel, s)
  | fuel' + 1 =>
    match readAsset s w.loc, lookupRM cfg w.rid with
    | some a, some rm =>
      if a.ph = Phase.injected then
        match rm.initFn with
        | none =>
          (.ok (), writeAsset s w.loc { a with ph := .created })
        | some (deps, fn) =>
          match resolveDeps cfg fuel' deps .injected s with
          | (.error e, s1) => (.error e, s1)
          | (.ok vals, s1) =>
            match readAsset s1 w.loc with
            | none => (.error (.typeMismatch w.rid), s1)
            | some a1 =>
              match a1.obj with
              | none => (.error (.typeMismatch w.rid), s1)
              | some v =>
                match fn v vals s1.user with
                | .error c => (.error (.userError c), s1)
                | .ok (v', u') =>
                  (.ok (), writeAsset { s1 with user := u' } w.loc
                    { obj := some v', ph := .created })
      else (.ok (), s)
    | _, _ => (.error (.typeMismatch w.rid), s)
termination_by structural fuel

/-- `contextual::provide`: fail when no provider is bound, otherwise resolve
the provider's dependencies through `get(dep, Phase::provided)` and call the
factory. -/
def provideCall (cfg : Config S V) (fuel : Nat) (r : Rid) (rm : RM S V)
    (s : EngState S V) : Except Err V × EngState S V :=
  match fuel with
  | 0 => (.error .outOfFuel, s)
  | fuel' + 1 =>
    match rm.provFn with
    | none =>
      (.error (.instantiation
        ("A provider is not set for resource " ++ toString r) none), s)
    | some (deps, fn) =>
      match resolveDeps cfg fuel' deps .provided s with
      | (.error e, s1) => (.error e, s1)
      | (.ok vals, s1) =>
        match fn vals s1.user with
        | .error c => (.error (.userError c), s1)
        | .ok (v, u') => (.ok v, { s1 with user := u' })
termination_by structural fuel

/-- Resolve a dependency list left to right: each bound
`detail::inject_partial` closure calls `providence().get(dep, ph)`. -/
def resolveDeps (cfg : Config S V) (fuel : Nat) (deps : List Rid) (ph : Phase)
    (s : EngState S V) : Except Err (List V) × EngState S V :=
  match fuel with
  | 0 => (.error .outOfFuel, s)
  | fuel' + 1 =>
    match deps with
    | [] => (.ok [], s)
    | d :: ds =>
      match getF cfg fuel' d ph s with
      | (.error e, s1) => (.error e, s1)
      | (.ok v, s1) =>
        match resolveDeps cfg fuel' ds ph s1 with
        | (.error e, s2) => (.error e, s2)
        | (.ok vs, s2) => (.ok (v :: vs), s2)
termination_by structural fuel

end

/-- `contextual::dispose` applied to the live context entry for `rid`
during `context::clear`: the `std::any_cast` of an empty holder throws
`bad_any_cast`; an unset disposer is a no-op; otherwise the dependencies
are resolved at `Phase::created` and the disposer runs, its mutation of the
instance written back.  (An entry that vanished mid-clear is skipped.) -/
def rmDisposeAt (cfg : Config S V) (fuel : Nat) (rid : Rid) (rm : RM S V)
    (s : EngState S V) : Except Err Unit × EngState S V :=
  match alookup rid s.ctx with
  | none => (.ok (), s)
  | some a =>
    match a.obj with
    | none => (.error (.typeMismatch rid), s)
    | some v =>
      match rm.dispFn with
      | none => (.ok (), s)
      | some (deps, fn) =>
        match resolveDeps cfg fuel deps .created s with
        | (.error e, s1) => (.error e, s1)
        | (.ok vals, s1) =>
          match fn v vals s1.user with
          | .error c => (.error (.userError c), s1)
          | .ok (v', u') =>
            (.ok (), { s1 with user := u', ctx := aupdate rid { a with obj := some v' } s1.ctx })

/-- The loop of `context::clear` over the entries of the asset map: a
missing resource manager raises `disposal_error` on the spot, a disposer
failure propagates; only once every entry has been processed is the map
cleared. -/
def clearLoop (cfg : Config S V) (fuel : Nat) :
    List (Rid × Asset V) → EngState S V → Except Err Unit × EngState S V
  | [], s => (.ok (), { s with ctx := [] })
  | (rid, _) :: rest, s =>
    match lookupRM cfg rid with
    | none =>
      (.error (.disposal
        ("Could not obtain resource manager for " ++ toString rid
          ++ " found in the context!")), s)
    | some rm =>
      match rmDisposeAt cfg fuel rid rm s with
      | (.error e, s1) => (.error e, s1)
      | (.ok _, s1) => clearLoop cfg fuel rest s1

/-- `context::clear` on the global context held in the engine state. -/
def clearCtx (cfg : Config S V) (fuel : Nat) (s : EngState S V) :
    Except Err Unit × EngState S V :=
  clearLoop cfg fuel s.ctx s

/-- `context::get`: emplace an empty asset when the rid is absent, report
whether the entry is new, and return the stored asset. -/
def ctxGet (r : Rid) (ctx : List (Rid × Asset V)) :
    (Asset V × Bool) × List (Rid × Asset V) :=
  match alookup r ctx with
  | some a => ((a, false), ctx)
  | none => ((Asset.fresh, true), ctx ++ [(r, Asset.fresh)])

/-- The state of `GuardedScope<Tag>`: the static turnstile counter `_n` and
the static context `ctx` (held inside an engine state so disposal can
recurse through the container). -/
structure GState (S V : Type) : Type where
  n : Nat
  es : EngState S V

/-- The default constructor of `GuardedScope`: `++_n`. -/
def gsConstruct (g : GState S V) : GState S V := { g with n := g.n + 1 }

/-- The copy constructor of `GuardedScope`: `++_n`. -/
def gsCopyConstruct (g : GState S V) : GState S V := { g with n := g.n + 1 }

/-- The move constructor of `GuardedScope`: it has no effect on the
turnstile count. -/
def gsMoveConstruct (g : GState S V) : GState S V := g

/-- The destructor of `GuardedScope`: `--_n`, and when the counter reaches
zero the context is cleared, errors swallowed (state mutations of the
partial clear persist). -/
def gsDestroy (cfg : Config S V) (fuel : Nat) (g : GState S V) : GState S V :=
  if g.n = 1 then { n := 0, es := (clearCtx cfg fuel g.es).2 }
  else { g with n := g.n - 1 }

/-- `GuardedScope::get_asset`: fail with `inactive_scope_error` while the
turnstile count is zero, otherwise delegate to the shared context. -/
def gsGetAsset (rid : Rid) (g : GState S V) :
    Except Err (Asset V × Bool) × GState S V :=
  if g.n = 0 then
    (.error (.inactiveScope
      ("Trying to allocate " ++ toString rid ++ " while scope is inactive")), g)
  else
    match ctxGet rid g.es.ctx with
    | (res, ctx') => (.ok res, { g with es := { g.es with ctx := ctx' } })

/-- `GuardedScope::drop_asset`: fail with `inactive_scope_error` while the
turnstile count is zero, otherwise drop from the shared context. -/
def gsDropAsset (rid : Rid) (g : GState S V) : Except Err Unit × GState S V :=
  if g.n = 0 then
    (.error (.inactiveScope
      ("Trying to drop " ++ toString rid ++ " while scope is inactive")), g)
  else (.ok (), { g with es := { g.es with ctx := aerase rid g.es.ctx } })

/-!  The consistency checker of `container.hh`: the phase event graph,
depth-first topological sort, and cycle reporting. -/

/-- A node of the dependency graph (`container::rsevent`): a phase event of
one resource. -/
structure CNode : Type where
  ph : Phase
  rid : Rid
deriving DecidableEq, Repr

/-- `DepGraph::get`: emplace a node, keeping first-insertion order. -/
def addNode (n : CNode) (ns : List CNode) : List CNode :=
  if n ∈ ns then ns else ns ++ [n]

/-- The edges added for one resource manager by `container::construct_graph`
(in source order: intra-resource chain, provider edges, injector edges,
initializer edges, disposer edges with their happens-before reversals),
paired with the node-insertion effect. -/
def graphStep (acc : List CNode × List (CNode × CNode)) (p : Rid × RM S V) :
    List CNode × List (CNode × CNode) :=
  let rid := p.1
  let rm := p.2
  let M : CNode := ⟨.allocated, rid⟩
  let P : CNode := ⟨.provided, rid⟩
  let I : CNode := ⟨.injected, rid⟩
  let C : CNode := ⟨.created, rid⟩
  let D : CNode := ⟨.disposed, rid⟩
  let ns0 := addNode D (addNode C (addNode I (addNode P (addNode M acc.1))))
  let es0 := acc.2 ++ [(D, C), (C, I), (I, P), (P, M)]
  let provStep := rm.provInjected.foldl
    (fun (a : List CNode × List (CNode × CNode)) d =>
      (addNode ⟨.provided, d⟩ a.1, a.2 ++ [(P, ⟨.provided, d⟩)])) (ns0, es0)
  let injStep := rm.injsInjected.foldl
    (fun (a : List CNode × List (CNode × CNode)) deps =>
      deps.foldl (fun (b : List CNode × List (CNode × CNode)) d =>
        (addNode ⟨.provided, d⟩ b.1, b.2 ++ [(I, ⟨.provided, d⟩)])) a) provStep
  let initStep := rm.initInjected.foldl
    (fun (a : List CNode × List (CNode × CNode)) d =>
      (addNode ⟨.injected, d⟩ a.1, a.2 ++ [(C, ⟨.injected, d⟩)])) injStep
  rm.dispInjected.foldl
    (fun (a : List CNode × List (CNode × CNode)) d =>
      (addNode ⟨.disposed, d⟩ (addNode ⟨.created, d⟩ a.1),
       a.2 ++ [(D, ⟨.created, d⟩), (⟨.disposed, d⟩, D)])) initStep

/-- `container::construct_graph` over the registry. -/
def constructGraph (rms : List (Rid × RM S V)) :
    List CNode × List (CNode × CNode) :=
  rms.foldl graphStep ([], [])

/-- The `req` list of a node, in edge-insertion order. -/
def reqsOf (es : List (CNode × CNode)) (n : CNode) : List CNode :=
  (es.filter fun e => e.1 = n).map Prod.snd

/-- `container::topo_sort_visit`: depth-first search with marks, emitting a
node after all its requirements (fuelled by the recursion depth, which is
bounded by the number of nodes). -/
def topoVisit (es : List (CNode × CNode)) :
    Nat → CNode → List CNode × List CNode → List CNode × List CNode
  | 0, _, st => st
  | fuel + 1, n, (marked, sorted) =>
    if n ∈ marked then (marked, sorted)
    else
      let st := (reqsOf es n).foldl
        (fun st r => topoVisit es fuel r st) (n :: marked, sorted)
      (st.1, st.2 ++ [n])

/-- `container::topo_sort_graph`: visit every node in insertion order. -/
def topoSort (nodes : List CNode) (es : List (CNode × CNode)) : List CNode :=
  (nodes.foldl (fun st n => topoVisit es (nodes.length + 1) n st) ([], [])).2

/-- `container::check_consistency`: build the graph, topologically sort it,
and report every requirement edge that is not respected by the order (the
report lines as printed to the stream).  Returns (consistent?, report). -/
def checkConsistency (rms : List (Rid × RM S V)) : Bool × List String :=
  let g := constructGraph rms
  let sorted := topoSort g.1 g.2
  let ordOf := fun n => sorted.indexOf n
  let bad := sorted.flatMap fun n =>
    ((reqsOf g.2 n).filter fun r => decide (ordOf n ≤ ordOf r)).map fun r => (n, r)
  (bad.isEmpty,
   bad.map fun e =>
     "Cyclical dependency: " ++ toString e.1.rid ++ " " ++ textPhase e.1.ph
       ++ " precedes " ++ toString e.2.rid ++ " " ++ textPhase e.2.ph)

end Engine

/-!  The qualifier model of `qualifiers.hh`: a qualifier is identified by
the `std::type_index` of its implementation class (the tag) plus the
optional additional state (the payload); `All`, `Default` and `Null` are
the predeclared zero-payload qualifiers, and the `All` class overrides
`matches` to return true unconditionally. -/

/-- A qualifier value: tag type-key plus optional payload. -/
structure Qual : Type where
  tag : Nat
  payload : Option Nat
deriving DecidableEq, Repr

/-- The tag of the predeclared `All` qualifier class. -/
def allTag : Nat := 0

/-- The `All` qualifier. -/
def AllQ : Qual := ⟨allTag, none⟩

/-- `qual_base::matches` with virtual dispatch: the `All` class overrides it
to true, every other class falls back to `equals`. -/
def Qual.qmatches (a b : Qual) : Bool :=
  if a.tag = allTag then true else a = b

/-- `qualifiers::contains`: find the member with the same tag (the set is
keyed by tag), then compare for equality. -/
def qsContains (s : List Qual) (q : Qual) : Bool :=
  match s.find? fun x => x.tag = q.tag with
  | some x => x = q
  | none => false

/-- `qualifiers::contains_similar`: membership by tag alone. -/
def qsContainsSimilar (s : List Qual) (q : Qual) : Bool :=
  s.any fun x => x.tag = q.tag

/-- `qualifiers::matches`: every member of one set matches some member of
the other, in both directions (member matching always dispatches on the
left set's element). -/
def qsMatches (a b : List Qual) : Bool :=
  (a.all fun x => b.any fun y => x.qmatches y)
    && (b.all fun y => a.any fun x => x.qmatches y)

/-- `qualifiers::operator==`: equal sizes and every member of the first
contained in the second. -/
def qsEq (a b : List Qual) : Bool :=
  (a.length = b.length : Bool) && (a.all fun q => qsContains b q)

/-!  Concrete scenario configurations, taken from the test suites
(`scope_tests.hh` and `provider_tests.hh`). -/

/-- An engine state with empty context, empty deferred stacks and the given
user state. -/
def engInit {S V : Type} (u : S) : EngState S V :=
  ⟨[], Asset.fresh, [], [], u⟩

/-- Scenario of `test_global_cycle_with_injection1`: resource A (rid 0) and
resource B (rid 1), each provided by a fresh heap allocation
(`new A(nullptr)`) and each wiring its `other` field to the other resource
through an injector.  The user state is the heap: a list indexed by address
whose entries hold the `other` pointer. -/
def rmC1A : RM (List (Option Nat)) Nat :=
  RM.addInjector
    (RM.setProvider {} (fun _ u => .ok (u.length, u ++ [none])) [])
    (fun self vals u => .ok (self, u.set self (some (vals.headD 0)))) [1]

/-- Resource B of the injector-cycle scenario: provider allocates, injector
stores A's address in `other`. -/
def rmC1B : RM (List (Option Nat)) Nat :=
  RM.addInjector
    (RM.setProvider {} (fun _ u => .ok (u.length, u ++ [none])) [])
    (fun self vals u => .ok (self, u.set self (some (vals.headD 0)))) [0]

/-- The injector-cycle container: A's injector depends on B and B's injector
depends on A; no provider dependencies. -/
def cfgC1 : Config (List (Option Nat)) Nat :=
  { rms := [(0, rmC1A), (1, rmC1B)], scopeOf := fun _ => ScopeKind.global }

/-- `get(A, created)` on the injector-cycle container. -/
def runC1A : Except Err Nat × EngState (List (Option Nat)) Nat :=
  getF cfgC1 32 0 .created (engInit [])

/-- ... followed by `get(B, created)`. -/
def runC1B : Except Err Nat × EngState (List (Option Nat)) Nat :=
  getF cfgC1 32 1 .created runC1A.2

/-- Scenario of `test_global_cycle`: A's provider depends on B and B's
provider depends on A (every cycle edge a provider edge). -/
def cfgC2 : Config Unit Nat :=
  { rms := [(0, RM.setProvider {} (fun vals u => .ok (vals.headD 0 + 1, u)) [1]),
            (1, RM.setProvider {} (fun vals u => .ok (vals.headD 0 + 1, u)) [0])],
    scopeOf := fun _ => ScopeKind.global }

/-- `get(A, created)` on the provider-cycle container. -/
def runC2 : Except Err Nat × EngState Unit Nat :=
  getF cfgC2 32 0 .created (engInit ())

/-- The error produced by `get(A)` on the provider-cycle container: each
provisioning frame wraps the cause discovered one level deeper. -/
def errC2 : Err :=
  .instantiation "Error while instantiating 0"
    (some (.instantiation "Error while instantiating 1"
      (some (.instantiation "Cyclical dependency in instantiating 0" none))))

/-- A state whose two deferred stacks are both non-empty, reached e.g. after
providing an asset with injectors and another with an initializer. -/
def sC3 : EngState Unit Nat :=
  { ctx := [(0, ⟨some 1, .provided⟩), (1, ⟨some 2, .injected⟩)],
    nsCell := Asset.fresh,
    dinj := [⟨.inCtx 0, 0⟩], dcre := [⟨.inCtx 1, 1⟩], user := () }

/-- A resource whose provider succeeds and whose single injector throws
(user error code 9). -/
def cfgC4x : Config Unit Nat :=
  { rms := [(0, RM.addInjector (RM.setProvider {} (fun _ u => .ok (7, u)) [])
      (fun _ _ _ => .error 9) [])],
    scopeOf := fun _ => ScopeKind.global }

/-- `get` on the failing-injector container. -/
def runC4x : Except Err Nat × EngState Unit Nat :=
  getF cfgC4x 16 0 .created (engInit ())

/-- A resource whose provider itself throws (user error code 5). -/
def cfgC4w : Config Unit Nat :=
  { rms := [(0, RM.setProvider {} (fun _ _ => .error 5) [])],
    scopeOf := fun _ => ScopeKind.global }

/-- A manager built by `set_initializer(f, d)` with the single dependency
`d = 3` on a fresh manager. -/
def rmC5 : RM Unit Nat :=
  RM.setInitCall {} (fun v _ u => .ok (v, u)) [3]

/-- A disposer that records its resource's rid in the user log. -/
def rmLogDisp (k : Nat) : RM (List Nat) Nat :=
  RM.setDisposer {} (fun v _ u => .ok (v, u ++ [k])) []

/-- Two resources with logging disposers. -/
def cfgC6 : Config (List Nat) Nat :=
  { rms := [(0, rmLogDisp 0), (1, rmLogDisp 1)], scopeOf := fun _ => ScopeKind.global }

/-- A context with created assets for both resources. -/
def sC6 : EngState (List Nat) Nat :=
  { ctx := [(0, ⟨some 10, .created⟩), (1, ⟨some 20, .created⟩)],
    nsCell := Asset.fresh, dinj := [], dcre := [], user := [] }

/-- `context::clear` on the two-entry context with both disposers
succeeding. -/
def runC6 : Except Err Unit × EngState (List Nat) Nat :=
  clearCtx cfgC6 8 sC6

/-- The same two resources, but the first disposer throws (code 3). -/
def cfgC6x : Config (List Nat) Nat :=
  { rms := [(0, RM.setDisposer {} (fun _ _ _ => .error 3) []), (1, rmLogDisp 1)],
    scopeOf := fun _ => ScopeKind.global }

/-- `context::clear` with the first disposal failing. -/
def runC6x : Except Err Unit × EngState (List Nat) Nat :=
  clearCtx cfgC6x 8 sC6

/-- One resource with a logging disposer, for the final deactivation of a
`GuardedScope`. -/
def cfgC7 : Config (List Nat) Nat :=
  { rms := [(5, rmLogDisp 5)], scopeOf := fun _ => ScopeKind.global }

/-- The guarded scope's context holding one created asset for rid 5. -/
def esC7 : EngState (List Nat) Nat :=
  { ctx := [(5, ⟨some 1, .created⟩)], nsCell := Asset.fresh,
    dinj := [], dcre := [], user := [] }

/-- A `NewScope` resource whose provider hands out consecutive values from
the user-state counter (the model of `new Foo(5)` returning fresh
pointers). -/
def cfgC8 : Config Nat Nat :=
  { rms := [(0, RM.setProvider {} (fun _ n => .ok (n, n + 1)) [])],
    scopeOf := fun _ => ScopeKind.newScope }

/-- First `get` on the `NewScope` resource. -/
def runC8a : Except Err Nat × EngState Nat Nat :=
  getF cfgC8 16 0 .created (engInit 0)

/-- Second `get` on the `NewScope` resource. -/
def runC8b : Except Err Nat × EngState Nat Nat :=
  getF cfgC8 16 0 .created runC8a.2

/-!  Helper lemmas about the association-list primitives. -/

theorem alookup_aerase {V : Type} (r : Rid) (l : List (Rid × Asset V)) :
    alookup r (aerase r l) = none := by
  induction l with
  | nil => rfl
  | cons p t ih =>
    rcases p with ⟨k, a⟩
    by_cases h : k = r
    · simpa [aerase, List.filter_cons, h] using ih
    · simpa [aerase, List.filter_cons, h, alookup] using ih

theorem alookup_append_none {V : Type} (r : Rid) (a : Asset V) :
    ∀ l : List (Rid × Asset V), alookup r l = none →
      alookup r (l ++ [(r, a)]) = some a := by
  intro l
  induction l with
  | nil => intro _; simp [alookup]
  | cons p t ih =>
    rcases p with ⟨k, b⟩
    intro h
    by_cases hk : k = r
    · rw [alookup, if_pos hk] at h
      exact absurd h (by simp)
    · rw [alookup, if_neg hk] at h
      rw [List.cons_append, alookup, if_neg hk]
      exact ih h

/-- Claim C1: with A's provider independent of B but A's injector depending
on B and B's injector depending on A (a cycle through injectors, the
scenario of `test_global_cycle_with_injection1`), instantiation succeeds:
`get(A)` returns the instance at heap address 0 and `get(B)` the one at
address 1, the two instances are mutually wired (`get(A).other == get(B)`
and `get(B).other == get(A)`), and both context assets end in phase
`created`.  The consistency check also accepts the configuration. -/
theorem c1_injector_cycle_wires_mutually :
    runC1A.1 = .ok 0 ∧ runC1B.1 = .ok 1
    ∧ runC1B.2.user = [some 1, some 0]
    ∧ alookup 0 runC1B.2.ctx = some ⟨some 0, .created⟩
    ∧ alookup 1 runC1B.2.ctx = some ⟨some 1, .created⟩
    ∧ (checkConsistency cfgC1.rms).1 = true :=
  ⟨rfl, rfl, rfl, rfl, rfl, rfl⟩

/-- Claim C2: when every cycle edge is a provider edge (A's provider depends
on B, B's provider depends on A, the scenario of `test_global_cycle`),
`check_consistency` returns false and its report contains a line starting
with the phrase "Cyclical dependency", and `get(A)` fails with an
`instantiation_error` whose message chain contains that phrase. -/
theorem c2_provider_cycle_rejected :
    (checkConsistency cfgC2.rms).1 = false
    ∧ (checkConsistency cfgC2.rms).2.any (fun l => strPrefix "Cyclical dependency" l) = true
    ∧ runC2.1 = .error errC2
    ∧ errC2.isInstantiation = true
    ∧ chainHas "Cyclical dependency" errC2 = true :=
  ⟨rfl, rfl, rfl, rfl, rfl⟩

/-- Claim C3, counterexample: in a state where both deferred stacks are
non-empty, the loop body of `do_deferred` serves the *injection* stack, not
the creation stack as claimed: at the concrete state `sC3` the next item
executed comes from the injection queue. -/
theorem c3_counterexample :
    nextDeferred sC3 = some (.fromInjection, ⟨.inCtx 0, 0⟩, { sC3 with dinj := [] })
    ∧ (nextDeferred sC3).map (fun x => decide (x.1 = DrainSrc.fromCreation))
        = some false :=
  ⟨rfl, rfl⟩

/-- Claim C3, amended: whenever the engine drains deferred work, a pending
injection-queue record is always drained in preference to a pending
creation-queue record: whenever the injection stack is non-empty, the next
item executed comes from the injection stack (the creation stack is only
served once the injection stack is empty). -/
theorem c3_injection_queue_preferred {S V : Type} (s : EngState S V)
    (w : DW) (rest : List DW) :
    nextDeferred { s with dinj := w :: rest }
      = some (.fromInjection, w, { s with dinj := rest }) := rfl

/-- Claim C5: evaluation of the code at the failing input.  After
`set_initializer(f, d)` with the single dependency `d = 3` on a fresh
manager, the recorded initializer injection list (`init_injections`) is
empty and the *disposer's* injection list has become `[3]`: the source
calls `disp.unwrap_inject` instead of `init.unwrap_inject`, so the claim's
described recording (and the consistency edge `Created_r requires
Injected_d` that would follow from it) never happens. -/
theorem c5_initializer_records_on_disposer :
    rmC5.initInjected = [] ∧ rmC5.dispInjected = [3] :=
  ⟨rfl, rfl⟩

/-- Claim C4, counterexample: a failing *injector* is not wrapped in an
`instantiation_error` and the partially-provisioned asset is not removed:
on `cfgC4x` (provider succeeds, injector throws user error 9) `get` fails
with the raw user error — not an instantiation error — and the asset is
still in the context at phase `provided`. -/
theorem c4_counterexample :
    runC4x.1 = .error (.userError 9)
    ∧ (Err.userError 9).isInstantiation = false
    ∧ alookup 0 runC4x.2.ctx = some ⟨some 7, .provided⟩ :=
  ⟨rfl, rfl, rfl⟩

/-- Claim C4, amended: only a failure raised while the *provider* runs
(including failures of its recursively resolved dependencies) is wrapped in
an `instantiation_error` carrying the underlying cause, with the
partially-provisioned asset removed from the scope's context before the
error propagates; a failure raised by an injector or initializer during the
deferred drain propagates unwrapped and leaves the asset in the context. -/
theorem c4_provider_failure_wrapped_and_dropped {S V : Type}
    (cfg : Config S V) (fuel : Nat) (r : Rid) (p : Phase) (s : EngState S V)
    (rm : RM S V) (e : Err) (s2 : EngState S V)
    (hscope : cfg.scopeOf r = .global)
    (hnew : alookup r s.ctx = none)
    (hp : ¬(p = Phase.allocated ∨ p = Phase.disposed))
    (hrm : lookupRM cfg r = some rm)
    (hprov : provideCall cfg fuel r rm
        { s with ctx := s.ctx ++ [(r, Asset.fresh)] } = (.error e, s2)) :
    getF cfg (fuel + 1) r p s
      = (.error (.instantiation
          ("Error while instantiating " ++ toString r) (some e)),
         { s2 with ctx := aerase r s2.ctx })
    ∧ alookup r (aerase r s2.ctx) = none := by
  constructor
  · rw [getF]
    rw [if_neg hp]
    simp only [scopeGetAsset, hscope, hnew]
    simp only [hrm, hprov, scopeDropAsset, hscope]
    rw [if_pos trivial]
  · exact alookup_aerase r s2.ctx

/-- A failing-provider run used to instantiate the amended claim C4: on
`cfgC4w` the provider throws user error 5, `get` fails with an
`instantiation_error` whose chained cause is that user error, and the
asset has been removed from the context. -/
theorem c4_witness :
    getF cfgC4w 11 0 .created (engInit ())
      = (.error (.instantiation ("Error while instantiating " ++ toString (0 : Rid))
          (some (.userError 5))),
         { (engInit () : EngState Unit Nat) with
             ctx := aerase 0 ((engInit () : EngState Unit Nat).ctx ++ [(0, Asset.fresh)]) })
    ∧ alookup 0 (aerase 0 ((engInit () : EngState Unit Nat).ctx ++ [(0, Asset.fresh)])) = none :=
  c4_provider_failure_wrapped_and_dropped cfgC4w 10 0 .created (engInit ())
    (RM.setProvider {} (fun _ _ => .error 5) []) (.userError 5)
    { (engInit () : EngState Unit Nat) with
        ctx := (engInit () : EngState Unit Nat).ctx ++ [(0, Asset.fresh)] }
    rfl rfl (by decide) rfl rfl

/-- Claim C6, counterexample: a disposer that raises aborts
`context::clear` on the spot: on `cfgC6x` (first disposer throws user
error 3) `clear` fails with the raw error, the second entry's disposer is
never invoked (the log stays empty), and the context still holds both
entries, so the context is not empty when `clear` returns. -/
theorem c6_counterexample :
    runC6x.1 = .error (.userError 3)
    ∧ runC6x.2.user = []
    ∧ runC6x.2.ctx = sC6.ctx
    ∧ runC6x.2.ctx.isEmpty = false :=
  ⟨rfl, rfl, rfl, rfl⟩

theorem clearLoop_ok_ctx {S V : Type} (cfg : Config S V) (fuel : Nat) :
    ∀ (entries : List (Rid × Asset V)) (s s' : EngState S V) (u : Unit),
      clearLoop cfg fuel entries s = (.ok u, s') → s'.ctx = [] := by
  intro entries
  induction entries with
  | nil =>
    intro s s' u h
    rw [clearLoop] at h
    have := congrArg Prod.snd h
    simp at this
    rw [← this]
  | cons p t ih =>
    rcases p with ⟨rid, a⟩
    intro s s' u h
    rw [clearLoop] at h
    split at h
    · exact absurd (congrArg Prod.fst h) (by simp)
    · split at h
      · exact absurd (congrArg Prod.fst h) (by simp)
      · exact ih _ s' u h

/-- Claim C6, amended: `context::clear` disposes the entries in iteration
order; when every disposal succeeds, each entry's disposer has run exactly
once and the context is empty afterwards; but a disposal failure (or a
missing manager) propagates immediately — the remaining entries are not
disposed and the map is not cleared.  The first conjunct: whenever `clear`
returns successfully the context is empty; the rest: on the two-entry
logging configuration both disposers run, once each and in order, and the
context ends empty. -/
theorem c6_clear_disposes_until_failure :
    (∀ {S V : Type} (cfg : Config S V) (fuel : Nat) (s s' : EngState S V) (u : Unit),
        clearCtx cfg fuel s = (.ok u, s') → s'.ctx = [])
    ∧ runC6.1 = .ok ()
    ∧ runC6.2.ctx = []
    ∧ runC6.2.user = [0, 1] :=
  ⟨fun cfg fuel s s' u h => clearLoop_ok_ctx cfg fuel s.ctx s s' u h, rfl, rfl, rfl⟩

/-- Instantiation of the success case of the amended claim C6 on the
two-entry logging configuration. -/
theorem c6_witness : runC6.2.ctx = [] :=
  c6_clear_disposes_until_failure.1 cfgC6 8 sC6 runC6.2 () rfl

/-- Claim C8, counterexample: `NewScope::get_asset` does not return
freshly-allocated distinct storage: the asset returned is a single static
cell, so two successive calls return the *same* storage location (which the
second call resets, overwriting the first asset). -/
theorem c8_counterexample :
    (scopeGetAsset cfgC8 0 (engInit 0)).1.1 = AssetLoc.cell
    ∧ (scopeGetAsset cfgC8 0 (scopeGetAsset cfgC8 0 (engInit 0)).2).1.1 = AssetLoc.cell
    ∧ (scopeGetAsset cfgC8 0 (engInit 0)).1.1
        = (scopeGetAsset cfgC8 0 (scopeGetAsset cfgC8 0 (engInit 0)).2).1.1 :=
  ⟨rfl, rfl, rfl⟩

/-- Claim C8, amended: every `NewScope::get_asset` call resets the single
static asset to a fresh empty state and returns it marked `isNew = true`,
without storing anything in the context; `drop_asset` is a no-op; and since
`isNew` is always true the provider runs on every request, so two
successive `get` calls with a fresh-allocating provider return distinct
instances (here 0, then 1). -/
theorem c8_newscope_always_fresh :
    (∀ s : EngState Nat Nat,
        scopeGetAsset cfgC8 0 s = ((.cell, true), { s with nsCell := Asset.fresh }))
    ∧ (∀ s : EngState Nat Nat, scopeDropAsset cfgC8 0 s = s)
    ∧ runC8a.1 = .ok 0
    ∧ runC8b.1 = .ok 1
    ∧ decide (runC8a.2.user = runC8b.2.user) = false
    ∧ runC8a.2.ctx = [] ∧ runC8b.2.ctx = [] :=
  ⟨fun _ => rfl, fun _ => rfl, rfl, rfl, rfl, rfl, rfl⟩

/-- Claim C7, counterexample: *move* construction of a `GuardedScope` value
does not increment the turnstile counter (the source's move constructor has
an empty body): at counter 1 a move construction leaves the state — and in
particular the counter — unchanged, where the claim demands an increment
to 2. -/
theorem c7_counterexample :
    gsMoveConstruct (⟨1, engInit ()⟩ : GState Unit Nat) = ⟨1, engInit ()⟩
    ∧ decide ((gsMoveConstruct (⟨1, engInit ()⟩ : GState Unit Nat)).n = 1 + 1)
        = false :=
  ⟨rfl, rfl⟩

/-- Claim C7, amended: default construction, copy construction (and copy
assignment, not stated here) increment the turnstile counter, while *move*
construction leaves it unchanged; destruction decrements it, and on the
transition to zero the scope's context is cleared (its assets disposed,
shown concretely by the logging run in the last two conjuncts); `get_asset`
and `drop_asset` while the counter is zero fail with
`inactive_scope_error`; and every activation shares the single static
context: `get_asset` under any positive count delegates to the one context,
and a second request for the same rid returns the same stored asset with
`isNew = false`. -/
theorem c7_turnstile_semantics :
    (∀ {S V : Type} (g : GState S V), gsConstruct g = ⟨g.n + 1, g.es⟩)
    ∧ (∀ {S V : Type} (g : GState S V), gsCopyConstruct g = ⟨g.n + 1, g.es⟩)
    ∧ (∀ {S V : Type} (g : GState S V), gsMoveConstruct g = g)
    ∧ (∀ {S V : Type} (cfg : Config S V) (fuel : Nat) (es : EngState S V),
        gsDestroy cfg fuel ⟨1, es⟩ = ⟨0, (clearCtx cfg fuel es).2⟩)
    ∧ (∀ {S V : Type} (cfg : Config S V) (fuel n : Nat) (es : EngState S V),
        gsDestroy cfg fuel ⟨n + 2, es⟩ = ⟨n + 1, es⟩)
    ∧ (∀ {S V : Type} (es : EngState S V) (rid : Rid),
        gsGetAsset rid ⟨0, es⟩ = (.error (.inactiveScope
          ("Trying to allocate " ++ toString rid ++ " while scope is inactive")),
          ⟨0, es⟩))
    ∧ (∀ {S V : Type} (es : EngState S V) (rid : Rid),
        gsDropAsset rid ⟨0, es⟩ = (.error (.inactiveScope
          ("Trying to drop " ++ toString rid ++ " while scope is inactive")),
          ⟨0, es⟩))
    ∧ (∀ {S V : Type} (n : Nat) (es : EngState S V) (rid : Rid),
        gsGetAsset rid ⟨n + 1, es⟩
          = (.ok (ctxGet rid es.ctx).1,
             ⟨n + 1, { es with ctx := (ctxGet rid es.ctx).2 }⟩))
    ∧ (∀ {V : Type} (ctx : List (Rid × Asset V)) (rid : Rid),
        ctxGet rid (ctxGet rid ctx).2
          = (((ctxGet rid ctx).1.1, false), (ctxGet rid ctx).2))
    ∧ (gsDestroy cfgC7 8 ⟨1, esC7⟩).es.ctx = []
    ∧ (gsDestroy cfgC7 8 ⟨1, esC7⟩).es.user = [5] := by
  refine ⟨fun g => rfl, fun g => rfl, fun g => rfl, fun cfg fuel es => rfl,
    fun cfg fuel n es => rfl, fun es rid => rfl, fun es rid => rfl,
    fun n es rid => rfl, ?_, rfl, rfl⟩
  intro V ctx rid
  rcases h : alookup rid ctx with _ | a
  · simp only [ctxGet, h]
    rw [alookup_append_none rid Asset.fresh ctx h]
  · simp only [ctxGet, h]

/-!  Lemmas for the qualifier-set matching relation. -/

theorem qual_tag_inj {l : List Qual} (h : (l.map Qual.tag).Nodup) :
    ∀ x ∈ l, ∀ y ∈ l, x.tag = y.tag → x = y := by
  induction l with
  | nil => intro x hx; cases hx
  | cons a t ih =>
    rw [List.map_cons, List.nodup_cons] at h
    intro x hx y hy hxy
    rcases List.mem_cons.mp hx with rfl | hx'
    · rcases List.mem_cons.mp hy with rfl | hy'
      · rfl
      · refine absurd ?_ h.1
        rw [hxy]
        exact List.mem_map_of_mem Qual.tag hy'
    · rcases List.mem_cons.mp hy with rfl | hy'
      · refine absurd ?_ h.1
        rw [← hxy]
        exact List.mem_map_of_mem Qual.tag hx'
      · exact ih h.2 x hx' y hy' hxy

theorem qsContains_iff {b : List Qual} {q : Qual}
    (hb : (b.map Qual.tag).Nodup) : qsContains b q = true ↔ q ∈ b := by
  unfold qsContains
  rcases hfind : b.find? (fun x => decide (x.tag = q.tag)) with _ | x
  · rw [hfind]
    constructor
    · intro h; cases h
    · intro hq
      have := List.find?_eq_none.mp hfind q hq
      simp at this
  · rw [hfind]
    constructor
    · intro h
      exact (of_decide_eq_true h) ▸ List.mem_of_find?_eq_some hfind
    · intro hq
      have hx := List.mem_of_find?_eq_some hfind
      have htag : x.tag = q.tag :=
        of_decide_eq_true
          (List.find?_some (p := fun y : Qual => decide (y.tag = q.tag)) hfind)
      exact decide_eq_true (qual_tag_inj hb x hx q hq htag)

theorem qsMatches_iff {A B : List Qual} (hA : ∀ x ∈ A, x.tag ≠ allTag) :
    qsMatches A B = true ↔ (∀ x ∈ A, x ∈ B) ∧ (∀ y ∈ B, y ∈ A) := by
  unfold qsMatches
  simp only [Bool.and_eq_true, List.all_eq_true, List.any_eq_true]
  constructor
  · rintro ⟨h1, h2⟩
    constructor
    · intro x hx
      obtain ⟨y, hy, hm⟩ := h1 x hx
      rw [Qual.qmatches, if_neg (hA x hx)] at hm
      exact (of_decide_eq_true hm) ▸ hy
    · intro y hy
      obtain ⟨x, hx, hm⟩ := h2 y hy
      rw [Qual.qmatches, if_neg (hA x hx)] at hm
      exact (of_decide_eq_true hm) ▸ hx
  · rintro ⟨h1, h2⟩
    constructor
    · intro x hx
      refine ⟨x, h1 x hx, ?_⟩
      rw [Qual.qmatches, if_neg (hA x hx)]
      simp
    · intro y hy
      refine ⟨y, h2 y hy, ?_⟩
      rw [Qual.qmatches, if_neg (hA y (h2 y hy))]
      simp

theorem qsEq_iff {A B : List Qual} (hB : (B.map Qual.tag).Nodup) :
    qsEq A B = true ↔ A.length = B.length ∧ ∀ q ∈ A, q ∈ B := by
  unfold qsEq
  simp only [Bool.and_eq_true, List.all_eq_true, decide_eq_true_eq]
  constructor
  · rintro ⟨h1, h2⟩
    exact ⟨h1, fun q hq => (qsContains_iff hB).mp (h2 q hq)⟩
  · rintro ⟨h1, h2⟩
    exact ⟨h1, fun q hq => (qsContains_iff hB).mpr (h2 q hq)⟩

theorem noAll_of_containsSimilar_false {A : List Qual}
    (h : qsContainsSimilar A AllQ = false) : ∀ x ∈ A, x.tag ≠ allTag := by
  intro x hx htag
  have : A.any (fun y => decide (y.tag = AllQ.tag)) = true :=
    List.any_eq_true.mpr ⟨x, hx, by simp [htag, AllQ]⟩
  rw [qsContainsSimilar] at h
  rw [h] at this
  cases this

/-- Claim C9: the `All` qualifier matches every qualifier, and for two
qualifier sets (lists with the at-most-one-per-tag invariant) neither of
which contains `All`, the matching relation holds if and only if the sets
are equal in the sense of `qualifiers::operator==` — set matching reduces
to set equality when `All` is absent. -/
theorem c9_all_matches_and_matching_is_equality :
    (∀ q : Qual, AllQ.qmatches q = true)
    ∧ (∀ A B : List Qual,
        (A.map Qual.tag).Nodup → (B.map Qual.tag).Nodup →
        qsContainsSimilar A AllQ = false → qsContainsSimilar B AllQ = false →
        (qsMatches A B = true ↔ qsEq A B = true)) := by
  constructor
  · intro q; rfl
  · intro A B hA hB hAall _hBall
    have hA' := noAll_of_containsSimilar_false hAall
    have ndA : A.Nodup := List.Nodup.of_map _ hA
    have ndB : B.Nodup := List.Nodup.of_map _ hB
    rw [qsMatches_iff hA', qsEq_iff hB]
    constructor
    · rintro ⟨h1, h2⟩
      refine ⟨?_, h1⟩
      have hfin : A.toFinset = B.toFinset := by
        ext q
        simp only [List.mem_toFinset]
        exact ⟨fun hq => h1 q hq, fun hq => h2 q hq⟩
      calc A.length = A.toFinset.card := (List.toFinset_card_of_nodup ndA).symm
        _ = B.toFinset.card := by rw [hfin]
        _ = B.length := List.toFinset_card_of_nodup ndB
    · rintro ⟨hlen, h1⟩
      refine ⟨h1, ?_⟩
      have hsub : A.toFinset ⊆ B.toFinset := by
        intro q hq
        rw [List.mem_toFinset] at hq ⊢
        exact h1 q hq
      have hcard : B.toFinset.card ≤ A.toFinset.card := by
        rw [List.toFinset_card_of_nodup ndA, List.toFinset_card_of_nodup ndB]
        exact le_of_eq hlen.symm
      have hfin := Finset.eq_of_subset_of_card_le hsub hcard
      intro y hy
      have : y ∈ A.toFinset := hfin ▸ List.mem_toFinset.mpr hy
      exact List.mem_toFinset.mp this

/-- Instantiation of claim C9 at a concrete pair of equal two-element
qualifier sets without `All`. -/
theorem c9_witness :
    qsEq [Qual.mk 1 none, Qual.mk 2 (some 7)]
      [Qual.mk 1 none, Qual.mk 2 (some 7)] = true :=
  (c9_all_matches_and_matching_is_equality.2
    [Qual.mk 1 none, Qual.mk 2 (some 7)] [Qual.mk 1 none, Qual.mk 2 (some 7)]
    (by decide) (by decide) (by decide) (by decide)).mp (by decide)

/-- Claim C10: the instantiation entry point rejects requests for the
`allocated` and `disposed` phases: for every container, resource and
engine state, `get(r, allocated)` and `get(r, disposed)` fail immediately
with an `instantiation_error`, and the returned state is exactly the input
state (no asset is looked up, no provider runs, the context is
unchanged). -/
theorem c10_get_rejects_allocated_disposed {S V : Type} (cfg : Config S V)
    (fuel : Nat) (r : Rid) (s : EngState S V) :
    getF cfg (fuel + 1) r .allocated s
      = (.error (.instantiation
          ("Cannot return an object in " ++ textPhase .allocated
            ++ " phase, for " ++ toString r) none), s)
    ∧ getF cfg (fuel + 1) r .disposed s
      = (.error (.instantiation
          ("Cannot return an object in " ++ textPhase .disposed
            ++ " phase, for " ++ toString r) none), s) :=
  ⟨rfl, rfl⟩

end CDI
